import Mathlib

/-
  Verification development for the DxSentinel golden-record pipeline.
  The core transformation components are modelled from the specification
  (the backend sources are not part of this snapshot); the browser-side
  handlers are embedded directly from the JavaScript sources.
-/

namespace DxSentinel

/-- Lower-case an ASCII character, leaving everything else unchanged. -/
def lowerChar (c : Char) : Char :=
  if c.toNat ≥ 65 ∧ c.toNat ≤ 90 then Char.ofNat (c.toNat + 32) else c

/-- Lower-case every character of a string. -/
def lowerStr (s : String) : String :=
  String.mk (s.toList.map lowerChar)

/-- Strip an index suffix such as a bracketed repetition count from a path segment:
everything from the first opening bracket on is removed. -/
def stripIndexChars (cs : List Char) : List Char :=
  cs.takeWhile (fun c => c ≠ '[')

/-- Check that a string ends with the given whole ending. -/
def strEndsWith (ending s : String) : Bool :=
  ending.toList.isSuffixOf s.toList

/-- Modelled from the spec: XmlElement — tag name, ordered attribute list,
ordered children, optional text content (section 3 data model; the parsing
sources are not in this snapshot). -/
inductive XmlElement where
  | node (tag : String) (attrs : List (String × String)) (children : List XmlElement)
      (text : Option String)

/-- Tag of an element. -/
def XmlElement.tag : XmlElement → String
  | .node t _ _ _ => t

/-- Attribute list of an element. -/
def XmlElement.attrs : XmlElement → List (String × String)
  | .node _ a _ _ => a

/-- Children of an element. -/
def XmlElement.children : XmlElement → List XmlElement
  | .node _ _ c _ => c

/-- First value bound to an attribute key, if any. -/
def lookupAttr (a : List (String × String)) (k : String) : Option String :=
  (a.find? (fun p => p.1 == k)).map (fun p => p.2)

/-- Whitespace recognizer used by text canonicalization. -/
def isWs (c : Char) : Bool :=
  c = ' ' || c = '\t' || c = '\n' || c = '\r'

/-- Collapse every run of whitespace characters to a single space. -/
def collapseRuns : List Char → List Char
  | [] => []
  | [c] => [if isWs c then ' ' else c]
  | c1 :: c2 :: cs =>
    if isWs c1 && isWs c2 then collapseRuns (c2 :: cs)
    else (if isWs c1 then ' ' else c1) :: collapseRuns (c2 :: cs)

/-- Modelled from the spec: text canonicalization of the XML Normalizer —
collapse consecutive whitespace to a single space and trim the ends
(section 4.2 step 1; xml_normalizer source is not in this snapshot). -/
def collapseText (s : String) : String :=
  String.mk ((((collapseRuns s.toList).dropWhile isWs).reverse.dropWhile isWs).reverse)

/-- Modelled from the spec: attribute canonicalization — lower-case keys and
deduplicate, last occurrence wins (section 4.2 step 2). -/
def canonAttrs (a : List (String × String)) : List (String × String) :=
  (a.map (fun p => (lowerStr p.1, p.2))).foldl
    (fun acc p => acc.filter (fun q => q.1 ≠ p.1) ++ [p]) []

mutual
/-- Modelled from the spec: structural canonicalization of one element
(steps 1 and 2 of the XML Normalizer). -/
def canonE : XmlElement → XmlElement
  | .node t a c txt => .node (lowerStr t) (canonAttrs a) (canonL c) (txt.map collapseText)

/-- Canonicalize a list of sibling elements. -/
def canonL : List XmlElement → List XmlElement
  | [] => []
  | e :: es => canonE e :: canonL es
end

mutual
/-- Modelled from the spec: the id index built by the XML Normalizer —
every value of an id attribute in the tree (section 4.2 step 3). -/
def idsE : XmlElement → List String
  | .node _ a c _ =>
    (match lookupAttr a "id" with
     | some v => [v]
     | none => []) ++ idsL c

/-- Id index over a list of sibling elements. -/
def idsL : List XmlElement → List String
  | [] => []
  | e :: es => idsE e ++ idsL es
end

/-- Modelled from the spec: reference-attribute recognizer — an attribute key
whose name carries the reference suffix naming convention (section 4.2 step 4). -/
def isRefAttr (k : String) : Bool :=
  strEndsWith "ref" k

/-- Keep an attribute pair when it is not a reference or when it resolves in
the id index. -/
def keepAttr (ids : List String) (p : String × String) : Bool :=
  !(isRefAttr p.1) || ids.contains p.2

mutual
/-- Modelled from the spec: reference scrubbing — drop every reference
attribute that does not resolve in the id index (section 4.2 step 4). -/
def scrubE (ids : List String) : XmlElement → XmlElement
  | .node t a c txt => .node t (a.filter (keepAttr ids)) (scrubL ids c) txt

/-- Reference scrubbing over a list of sibling elements. -/
def scrubL (ids : List String) : List XmlElement → List XmlElement
  | [] => []
  | e :: es => scrubE ids e :: scrubL ids es
end

mutual
/-- Count of reference attributes that do not resolve: the non-fatal
diagnostics the normalizer records. -/
def unresolvedE (ids : List String) : XmlElement → Nat
  | .node _ a c _ =>
    (a.filter (fun p => !(keepAttr ids p))).length + unresolvedL ids c

/-- Unresolved-reference count over sibling elements. -/
def unresolvedL (ids : List String) : List XmlElement → Nat
  | [] => 0
  | e :: es => unresolvedE ids e + unresolvedL ids es
end

mutual
/-- Every reference attribute of the tree resolves in the given id index. -/
def refsOkE (ids : List String) : XmlElement → Bool
  | .node _ a c _ => a.all (keepAttr ids) && refsOkL ids c

/-- Reference-resolution check over sibling elements. -/
def refsOkL (ids : List String) : List XmlElement → Bool
  | [] => true
  | e :: es => refsOkE ids e && refsOkL ids es
end

/-- Fatal error of the normalizer stage. -/
inductive NormError where
  | StructuralViolation
deriving DecidableEq

/-- Modelled from the spec: the root marker required of a known structure
schema document. -/
def requiredRootMarker : String := "structure"

/-- Modelled from the spec: the XML Normalizer — canonicalize text and
attributes, build the id index, scrub unresolvable references recording a
diagnostic count; fail with StructuralViolation exactly when the canonical
root tag is not the required root marker (section 4.2; xml_normalizer source
is not in this snapshot). -/
def normalizeDocument (e : XmlElement) : Except NormError (XmlElement × Nat) :=
  let e1 := canonE e
  if e1.tag = requiredRootMarker then
    let ids := idsE e1
    .ok (scrubE ids e1, unresolvedE ids e1)
  else
    .error .StructuralViolation

theorem isRefAttr_id : isRefAttr "id" = false := by decide

theorem keepAttr_of_id (ids : List String) (p : String × String)
    (h : (p.1 == "id") = true) : keepAttr ids p = true := by
  have hp : p.1 = "id" := by simpa using h
  simp [keepAttr, hp, isRefAttr_id]

theorem lookupAttr_filter_keep (ids : List String) (a : List (String × String)) :
    lookupAttr (a.filter (keepAttr ids)) "id" = lookupAttr a "id" := by
  induction a with
  | nil => rfl
  | cons p a ih =>
    by_cases h : (p.1 == "id") = true
    · have hk := keepAttr_of_id ids p h
      simp [lookupAttr, List.filter_cons, hk, List.find?_cons, h]
    · have h' : (p.1 == "id") = false := by simpa using h
      by_cases hk : keepAttr ids p = true
      · simpa [lookupAttr, List.filter_cons, hk, List.find?_cons, h'] using ih
      · have hk' : keepAttr ids p = false := by simpa using hk
        simpa [lookupAttr, List.filter_cons, hk', List.find?_cons, h'] using ih

mutual
theorem idsE_scrub (ids : List String) : ∀ e, idsE (scrubE ids e) = idsE e
  | .node t a c txt => by
    simp [scrubE, idsE, idsL_scrub ids c, lookupAttr_filter_keep ids a]

theorem idsL_scrub (ids : List String) : ∀ es, idsL (scrubL ids es) = idsL es
  | [] => rfl
  | e :: es => by
    simp [scrubL, idsL, idsE_scrub ids e, idsL_scrub ids es]
end

mutual
theorem refsOk_scrubE (ids : List String) : ∀ e, refsOkE ids (scrubE ids e) = true
  | .node t a c txt => by
    simp only [scrubE, refsOkE, Bool.and_eq_true]
    refine ⟨?_, refsOk_scrubL ids c⟩
    simp [List.all_eq_true, List.mem_filter]

theorem refsOk_scrubL (ids : List String) : ∀ es, refsOkL ids (scrubL ids es) = true
  | [] => rfl
  | e :: es => by
    simp [scrubL, refsOkL, refsOk_scrubE ids e, refsOk_scrubL ids es]
end

/-- Example structure document carrying one unresolvable reference attribute. -/
def exDocC8 : XmlElement :=
  .node "Structure" []
    [.node "field" [("groupref", "g9"), ("id", "f1")] [] none] none

/-- The normalized form of the example document: the unresolvable reference
attribute has been dropped. -/
def exScrubC8 : XmlElement :=
  .node "structure" [] [.node "field" [("id", "f1")] [] none] none

/-- C8: the XML Normalizer never fails because of an unresolved reference
attribute — on success every reference attribute remaining in the output
resolves in the output id index, the unresolved ones having been dropped with
a diagnostic count — and it fails, always with StructuralViolation, exactly
when the canonical root tag is not the required root marker. -/
theorem normalizer_error_discipline (e : XmlElement) :
    (∀ err, normalizeDocument e = .error err →
        err = NormError.StructuralViolation ∧ ¬ (canonE e).tag = requiredRootMarker)
  ∧ (¬ (canonE e).tag = requiredRootMarker →
        normalizeDocument e = .error NormError.StructuralViolation)
  ∧ (∀ out diags, normalizeDocument e = .ok (out, diags) →
        refsOkE (idsE out) out = true) := by
  refine ⟨?_, ?_, ?_⟩
  · intro err herr
    by_cases h : (canonE e).tag = requiredRootMarker
    · simp [normalizeDocument, h] at herr
    · exact ⟨by cases err; rfl, h⟩
  · intro h
    simp [normalizeDocument, h]
  · intro out diags hout
    by_cases h : (canonE e).tag = requiredRootMarker
    · simp [normalizeDocument, h] at hout
      rw [← hout.1, idsE_scrub]
      exact refsOk_scrubE _ _
    · simp [normalizeDocument, h] at hout

/-- Witness for C8 at the concrete example document: normalization succeeds
with one diagnostic and the scrubbed output has every reference resolving. -/
theorem normalizer_error_discipline_witness :
    normalizeDocument exDocC8 = .ok (exScrubC8, 1) ∧
      refsOkE (idsE exScrubC8) exScrubC8 = true :=
  ⟨rfl, (normalizer_error_discipline exDocC8).2.2 exScrubC8 1 rfl⟩

/-- Closed set of field type tags (section 3 data model). -/
inductive FieldType where
  | text
  | choice
  | numeric
  | group
  | unknown
deriving DecidableEq

/-- One language-tagged label or value entry of a field. -/
structure LangEntry where
  lang : String
  country : Option String
  value : String
deriving DecidableEq

/-- Modelled from the spec: FieldRecord — raw identifier, hierarchical path,
type tag and ordered language entries (section 3; element_processor source is
not in this snapshot). -/
structure FieldRecord where
  identifier : String
  path : List String
  ftype : FieldType
  labels : List LangEntry
deriving DecidableEq

/-- Normalize one path segment: lower-case and strip the index suffix used
for repeated groups. -/
def normalizeSegment (s : String) : String :=
  String.mk (stripIndexChars (s.toList.map lowerChar))

/-- Modelled from the spec: path normalization of the Business Key Resolver —
lower-case each segment and strip index suffixes (section 4.6;
business key resolver source is not in this snapshot). -/
def normalizePath (p : List String) : List String :=
  p.map normalizeSegment

/-- Modelled from the spec: identifier markers known to vary between
structure-document revisions, stripped during identifier normalization. -/
def versionMarkers : List (List Char) :=
  ["v1_".toList, "v2_".toList, "v3_".toList]

/-- Drop a leading version marker from a character list, if one matches. -/
def stripVersionMarker (cs : List Char) : List Char :=
  match versionMarkers.find? (fun m => m.isPrefixOf cs) with
  | some m => cs.drop m.length
  | none => cs

/-- Modelled from the spec: identifier normalization of the Business Key
Resolver — strip version-variant markers and lower-case (section 4.6). -/
def normalizeIdentifier (s : String) : String :=
  String.mk ((stripVersionMarker s.toList).map lowerChar)

/-- Fixed separator between the path part and the identifier part of a
business key. -/
def bkSeparator : String := "::"

/-- Modelled from the spec: the Business Key Resolver — concatenate the
normalized path and the normalized identifier with a fixed separator
(section 4.6). -/
def businessKey (fr : FieldRecord) : String :=
  String.intercalate "/" (normalizePath fr.path) ++ bkSeparator
    ++ normalizeIdentifier fr.identifier

/-- C3: the BusinessKey is a deterministic function of the normalized path
and the normalized identifier alone — two FieldRecords agreeing on both get
the identical key, whatever their raw identifiers, types or labels. -/
theorem businessKey_stable (r1 r2 : FieldRecord)
    (hp : normalizePath r1.path = normalizePath r2.path)
    (hi : normalizeIdentifier r1.identifier = normalizeIdentifier r2.identifier) :
    businessKey r1 = businessKey r2 := by
  simp [businessKey, hp, hi]

/-- First version of the example field: declared inside a repeated group with
an indexed path and a version-marked identifier. -/
def exFieldV1 : FieldRecord :=
  ⟨"v1_Score", ["Section[1]", "Field[2]"], FieldType.text, []⟩

/-- Later version of the example field: the group index is dropped and the
identifier carries a different version marker. -/
def exFieldV2 : FieldRecord :=
  ⟨"v2_Score", ["Section", "Field[2]"], FieldType.numeric, []⟩

/-- Witness for C3 at the spec example: the indexed-path and version-marked
variants of the same logical field resolve to the identical business key. -/
theorem businessKey_stable_witness :
    normalizePath exFieldV1.path = normalizePath exFieldV2.path ∧
      normalizeIdentifier exFieldV1.identifier = normalizeIdentifier exFieldV2.identifier ∧
      businessKey exFieldV1 = businessKey exFieldV2 :=
  ⟨by decide, by decide, businessKey_stable exFieldV1 exFieldV2 (by decide) (by decide)⟩

/-- Failure of the Language Resolver. -/
inductive LangError where
  | NoLabelAvailable
deriving DecidableEq

/-- Entry matches the requested language and country exactly (tier 1). -/
def matchesLangCountry (l cc : String) (e : LangEntry) : Bool :=
  e.lang == l && e.country == some cc

/-- Entry matches the requested language, any country (tiers 2 and 3). -/
def matchesLang (l : String) (e : LangEntry) : Bool :=
  e.lang == l

/-- Modelled from the spec: the Language Resolver — try tiers in order:
(1) exact language and country, (2) exact language any country, (3) the
configured default language, (4) first entry in document order; fail with
NoLabelAvailable when the record carries zero language entries (section 4.7;
language_resolver source is not in this snapshot). Returns the chosen value
together with the tier number that satisfied it. -/
def resolveLanguage (dflt l : String) (c : Option String) (fr : FieldRecord) :
    Except LangError (String × Nat) :=
  match c.bind (fun cc => fr.labels.find? (matchesLangCountry l cc)),
      fr.labels.find? (matchesLang l),
      fr.labels.find? (matchesLang dflt),
      fr.labels with
  | some e, _, _, _ => .ok (e.value, 1)
  | none, some e, _, _ => .ok (e.value, 2)
  | none, none, some e, _ => .ok (e.value, 3)
  | none, none, none, e :: _ => .ok (e.value, 4)
  | none, none, none, [] => .error .NoLabelAvailable

/-- C4: the Language Resolver fails, with NoLabelAvailable, exactly when the
record carries zero language entries; otherwise it returns the value of the
first entry satisfying the first satisfied tier, with that tier number:
exact language and country, then exact language, then the configured default
language, then the first entry in document order. -/
theorem language_resolver_order (dflt l : String) (c : Option String)
    (fr : FieldRecord) :
    (resolveLanguage dflt l c fr = .error LangError.NoLabelAvailable ↔ fr.labels = [])
  ∧ (∀ cc e, c = some cc →
      fr.labels.find? (matchesLangCountry l cc) = some e →
      resolveLanguage dflt l c fr = .ok (e.value, 1))
  ∧ (∀ e, (c.bind fun cc => fr.labels.find? (matchesLangCountry l cc)) = none →
      fr.labels.find? (matchesLang l) = some e →
      resolveLanguage dflt l c fr = .ok (e.value, 2))
  ∧ (∀ e, (c.bind fun cc => fr.labels.find? (matchesLangCountry l cc)) = none →
      fr.labels.find? (matchesLang l) = none →
      fr.labels.find? (matchesLang dflt) = some e →
      resolveLanguage dflt l c fr = .ok (e.value, 3))
  ∧ (∀ e rest, (c.bind fun cc => fr.labels.find? (matchesLangCountry l cc)) = none →
      fr.labels.find? (matchesLang l) = none →
      fr.labels.find? (matchesLang dflt) = none →
      fr.labels = e :: rest →
      resolveLanguage dflt l c fr = .ok (e.value, 4)) := by
  refine ⟨⟨?_, ?_⟩, ?_, ?_, ?_, ?_⟩
  · intro herr
    cases hlab : fr.labels with
    | nil => rfl
    | cons e rest =>
      cases h1 : (c.bind fun cc => fr.labels.find? (matchesLangCountry l cc)) with
      | some e1 => simp [resolveLanguage, h1] at herr
      | none =>
        cases h2 : fr.labels.find? (matchesLang l) with
        | some e2 => simp [resolveLanguage, h1, h2] at herr
        | none =>
          cases h3 : fr.labels.find? (matchesLang dflt) with
          | some e3 => simp [resolveLanguage, h1, h2, h3] at herr
          | none =>
            rw [hlab] at h1 h2 h3
            simp [resolveLanguage, hlab, h1, h2, h3] at herr
  · intro hlab
    cases c with
    | none => simp [resolveLanguage, hlab]
    | some cc => simp [resolveLanguage, hlab]
  · intro cc e hc hfind
    simp [resolveLanguage, hc, hfind]
  · intro e h1 h2
    simp [resolveLanguage, h1, h2]
  · intro e h1 h2 h3
    simp [resolveLanguage, h1, h2, h3]
  · intro e rest h1 h2 h3 hlab
    rw [hlab] at h1 h2 h3
    simp [resolveLanguage, hlab, h1, h2, h3]

/-- Example field carrying labels for en and es only. -/
def exFieldLang : FieldRecord :=
  ⟨"client_name", ["root"], FieldType.text,
    [⟨"en", none, "Client Name"⟩, ⟨"es", none, "Cliente"⟩]⟩

/-- Witness for C4 at the spec scenario: labels for en and es only, requesting
fr with default en resolves to the en value at fallback tier 3. -/
theorem language_resolver_order_witness :
    resolveLanguage "en" "fr" none exFieldLang = .ok ("Client Name", 3) :=
  (language_resolver_order "en" "fr" none exFieldLang).2.2.2.1
    ⟨"en", none, "Client Name"⟩ rfl (by decide) (by decide)

/-- Reasons the Field Filter may exclude a record. -/
inductive ExcludeReason where
  | isGroup
  | unknownType
  | emptyLabels
  | categoryBlocked
deriving DecidableEq

/-- Closed category set used by the Field Categorizer (section 4.8). -/
inductive Category where
  | demographic
  | scoring
  | consultantMeta
  | clientMeta
  | uncategorized
deriving DecidableEq

/-- Modelled from the spec: the enumerated inclusion policy of the Field
Filter (section 4.5; field_filter source is not in this snapshot). -/
structure FilterPolicy where
  excludeGroups : Bool
  excludeUnknownType : Bool
  excludeEmptyLabels : Bool
  allowlist : Option (List Category)
deriving DecidableEq

/-- Per-reason exclusion counters returned for diagnostics. -/
structure FilterCounts where
  groups : Nat
  unknowns : Nat
  empties : Nat
  blocked : Nat
deriving DecidableEq

/-- Sum of the per-reason exclusion counters. -/
def FilterCounts.total (c : FilterCounts) : Nat :=
  c.groups + c.unknowns + c.empties + c.blocked

/-- Bump the counter of one exclusion reason. -/
def FilterCounts.bump (c : FilterCounts) : ExcludeReason → FilterCounts
  | .isGroup => { c with groups := c.groups + 1 }
  | .unknownType => { c with unknowns := c.unknowns + 1 }
  | .emptyLabels => { c with empties := c.empties + 1 }
  | .categoryBlocked => { c with blocked := c.blocked + 1 }

/-- Modelled from the spec: the first exclusion reason the policy assigns to
a record, if any (section 4.5). -/
def excludeReasonOf (p : FilterPolicy) (cat : FieldRecord → Category)
    (fr : FieldRecord) : Option ExcludeReason :=
  if p.excludeGroups && (fr.ftype == FieldType.group) then some .isGroup
  else if p.excludeUnknownType && (fr.ftype == FieldType.unknown) then some .unknownType
  else if p.excludeEmptyLabels && fr.labels.isEmpty then some .emptyLabels
  else
    match p.allowlist with
    | some allow => if allow.contains (cat fr) then none else some .categoryBlocked
    | none => none

/-- Modelled from the spec: the Field Filter — order-preserving predicate
composition returning the filtered subsequence plus per-reason exclusion
counts (section 4.5; field_filter source is not in this snapshot). -/
def fieldFilter (p : FilterPolicy) (cat : FieldRecord → Category) :
    List FieldRecord → List FieldRecord × FilterCounts
  | [] => ([], ⟨0, 0, 0, 0⟩)
  | fr :: rest =>
    let prev := fieldFilter p cat rest
    match excludeReasonOf p cat fr with
    | none => (fr :: prev.1, prev.2)
    | some r => (prev.1, prev.2.bump r)

theorem FilterCounts.total_bump (c : FilterCounts) (r : ExcludeReason) :
    (c.bump r).total = c.total + 1 := by
  cases r <;> simp [FilterCounts.bump, FilterCounts.total] <;> omega

/-- C5: filter conservation — the length of the filtered subsequence plus the
sum of the per-reason exclusion counts equals the length of the input list,
for every policy and input. -/
theorem fieldFilter_conservation (p : FilterPolicy) (cat : FieldRecord → Category)
    (l : List FieldRecord) :
    (fieldFilter p cat l).1.length + (fieldFilter p cat l).2.total = l.length := by
  induction l with
  | nil => rfl
  | cons fr rest ih =>
    cases hr : excludeReasonOf p cat fr with
    | none =>
      simp [fieldFilter, hr]
      omega
    | some r =>
      simp [fieldFilter, hr, FilterCounts.total_bump]
      omega

/-- Modelled from the spec: one configuration rule of the Field Categorizer —
a record whose path carries the trigger tag gets the rule category
(section 4.8; field_categorizer source is not in this snapshot). -/
structure CategoryRule where
  trigger : String
  cat : Category
deriving DecidableEq

/-- Modelled from the spec: the Field Categorizer — first matching rule wins,
unmatched records default to uncategorized, never an error (section 4.8). -/
def categorize (rules : List CategoryRule) (fr : FieldRecord) : Category :=
  match rules.find? (fun r => fr.path.contains r.trigger) with
  | some r => r.cat
  | none => Category.uncategorized

/-- Drop a namespace marker from an identifier: keep what follows the last
colon, if any. -/
def dropNsChars (cs : List Char) : List Char :=
  if cs.contains ':' then (cs.reverse.takeWhile (fun c => c ≠ ':')).reverse else cs

/-- Modelled from the spec: the Field Identifier Extractor — strip namespace
markers and index suffixes from the raw identifier; pure string transform,
no failure mode (section 4.8). -/
def extractIdentifier (s : String) : String :=
  String.mk (stripIndexChars (dropNsChars s.toList))

/-- ResolvedField: a FieldRecord together with its business key, category,
resolved canonical label and the language tier that produced it (section 3). -/
structure ResolvedField where
  record : FieldRecord
  key : String
  category : Category
  label : String
  labelTier : Nat
deriving DecidableEq

/-- The double-quote character of the CSV quoting rules. -/
def dq : Char := Char.ofNat 34

/-- A cell value needs quoting when it contains the delimiter, a quote or a
line break. -/
def needsQuote (s : String) : Bool :=
  s.toList.any (fun c => c = ',' || c = dq || c = '\n')

/-- Double every quote character of a cell value. -/
def doubleQuotes : List Char → List Char
  | [] => []
  | c :: cs => (if c = dq then [dq, dq] else [c]) ++ doubleQuotes cs

/-- Modelled from the spec: CSV escaping per standard quoting rules
(section 4.9 item a; csv_generator source is not in this snapshot). -/
def csvEscape (s : String) : String :=
  if needsQuote s then String.mk (dq :: (doubleQuotes s.toList ++ [dq])) else s

/-- One instance data binding: an association of business keys to values. -/
def lookupValue (b : List (String × String)) (k : String) : Option String :=
  (b.find? (fun p => p.1 == k)).map (fun p => p.2)

/-- Modelled from the spec: the header row — business key or display label
per column, in ResolvedField emission order (section 4.9). -/
def headerRow (useKey : Bool) (fields : List ResolvedField) : List String :=
  fields.map (fun f => csvEscape (if useKey then f.key else f.label))

/-- Modelled from the spec: one data row — the bound value of every column in
order, a missing value rendered as an empty field (section 4.9 item b). -/
def dataRow (fields : List ResolvedField) (b : List (String × String)) :
    List String :=
  fields.map (fun f => csvEscape ((lookupValue b f.key).getD ""))

/-- Modelled from the spec: the CSV Generator — header row first, then one
row per instance binding (section 4.9; csv_generator source is not in this
snapshot). -/
def goldenRecord (useKey : Bool) (fields : List ResolvedField)
    (instances : List (List (String × String))) : List (List String) :=
  headerRow useKey fields :: instances.map (dataRow fields)

theorem csvEscape_empty : csvEscape "" = "" := by decide

/-- C2: every row of a generated golden record — the header and every data
row — has exactly as many fields as the header, and a missing value is
rendered as an empty field at its column position, never omitted. -/
theorem goldenRecord_column_invariant (useKey : Bool)
    (fields : List ResolvedField) (instances : List (List (String × String))) :
    (∀ row ∈ goldenRecord useKey fields instances,
        row.length = (headerRow useKey fields).length)
  ∧ (∀ b i, ∀ h : i < fields.length,
        lookupValue b (fields.get ⟨i, h⟩).key = none →
        (dataRow fields b)[i]? = some "") := by
  constructor
  · intro row hrow
    rcases List.mem_cons.mp hrow with h | h
    · rw [h]
    · rcases List.mem_map.mp h with ⟨b, _, hb⟩
      rw [← hb]
      simp [dataRow, headerRow]
  · intro b i h hmiss
    have hlen : i < (dataRow fields b).length := by
      simpa [dataRow] using h
    rw [List.getElem?_eq_getElem hlen]
    simp only [dataRow, List.getElem_map]
    have : lookupValue b fields[i].key = none := by
      simpa [List.get_eq_getElem] using hmiss
    rw [this]
    simpa using csvEscape_empty

/-- Example column set and bindings for the C2 witness: the second column has
no bound value. -/
def exFieldsC2 : List ResolvedField :=
  [⟨exFieldLang, "root::client_name", Category.clientMeta, "Cliente", 1⟩,
   ⟨exFieldV2, "section/field::score", Category.scoring, "Score", 2⟩]

/-- Witness for C2 at a concrete golden record: a binding missing the second
column still yields full-width rows with an empty field in that column. -/
theorem goldenRecord_column_invariant_witness :
    (dataRow exFieldsC2 [("root::client_name", "Acme")]).length =
        (headerRow true exFieldsC2).length
  ∧ (dataRow exFieldsC2 [("root::client_name", "Acme")])[1]? = some "" := by
  have h := goldenRecord_column_invariant true exFieldsC2
      [[("root::client_name", "Acme")]]
  refine ⟨?_, ?_⟩
  · exact h.1 (dataRow exFieldsC2 [("root::client_name", "Acme")])
      (List.mem_cons_of_mem _ (List.mem_singleton.mpr rfl))
  · exact h.2 [("root::client_name", "Acme")] 1 (by decide) (by decide)

/-- Instance descriptors carried by a metadata document (section 3). -/
structure InstanceDescriptors where
  instId : String
  client : String
  consultant : String
  date : String
  structVersion : String
  sourcePath : String
deriving DecidableEq

/-- Render a category tag for emission. -/
def catToString : Category → String
  | .demographic => "demographic"
  | .scoring => "scoring"
  | .consultantMeta => "consultant-metadata"
  | .clientMeta => "client-metadata"
  | .uncategorized => "uncategorized"

/-- Read a category tag back from its rendered form. -/
def catOfString (s : String) : Option Category :=
  if s = "demographic" then some .demographic
  else if s = "scoring" then some .scoring
  else if s = "consultant-metadata" then some .consultantMeta
  else if s = "client-metadata" then some .clientMeta
  else if s = "uncategorized" then some .uncategorized
  else none

theorem catOfString_catToString (c : Category) :
    catOfString (catToString c) = some c := by
  cases c <;> decide

/-- One field entry of a metadata document: business key, category,
identifier, resolved label and path (section 4.10). -/
structure FieldMetaEntry where
  key : String
  category : Category
  identifier : String
  label : String
  pathStr : String
deriving DecidableEq

/-- The metadata attributes of a resolved field, as the generator uses them. -/
def metaEntryOf (f : ResolvedField) : FieldMetaEntry :=
  ⟨f.key, f.category, extractIdentifier f.record.identifier, f.label,
   String.intercalate "/" f.record.path⟩

/-- Emitted form of the instance descriptors. -/
def descriptorRow (d : InstanceDescriptors) : List String :=
  [d.instId, d.client, d.consultant, d.date, d.structVersion, d.sourcePath]

/-- Emitted form of one field entry. -/
def fieldMetaRow (f : ResolvedField) : List String :=
  [f.key, catToString f.category, extractIdentifier f.record.identifier,
   f.label, String.intercalate "/" f.record.path]

/-- Modelled from the spec: the Metadata Generator — the instance descriptors
followed by one entry per resolved field, in emission order (section 4.10;
metadata_generator source is not in this snapshot). -/
def generateMetadata (d : InstanceDescriptors) (fs : List ResolvedField) :
    List (List String) :=
  descriptorRow d :: fs.map fieldMetaRow

/-- Read the instance descriptors back from their emitted row. -/
def parseDescriptorRow : List String → Option InstanceDescriptors
  | [a, b, c, d, e, f] => some ⟨a, b, c, d, e, f⟩
  | _ => none

/-- Read one field entry back from its emitted row. -/
def parseFieldMetaRow : List String → Option FieldMetaEntry
  | [k, c, i, l, p] => (catOfString c).map (fun cat => ⟨k, cat, i, l, p⟩)
  | _ => none

/-- Read a list of field entries back, failing on the first bad row. -/
def parseFieldRows : List (List String) → Option (List FieldMetaEntry)
  | [] => some []
  | r :: rs =>
    match parseFieldMetaRow r, parseFieldRows rs with
    | some e, some es => some (e :: es)
    | _, _ => none

/-- Modelled from the spec: the parser of the emitted metadata document, the
contract consumed by the Layout Splitter (section 4.10). -/
def parseMetadata (doc : List (List String)) :
    Option (InstanceDescriptors × List FieldMetaEntry) :=
  match doc with
  | [] => none
  | drow :: rest =>
    match parseDescriptorRow drow, parseFieldRows rest with
    | some d, some es => some (d, es)
    | _, _ => none

theorem parseFieldMetaRow_round (f : ResolvedField) :
    parseFieldMetaRow (fieldMetaRow f) = some (metaEntryOf f) := by
  simp [parseFieldMetaRow, fieldMetaRow, metaEntryOf, catOfString_catToString]

/-- C6: the Metadata Generator and its parser form a round trip — parsing the
emitted document reproduces the instance descriptors and exactly the
ResolvedField ordering and field attributes (business key, category,
identifier, resolved label, path) used to build it. -/
theorem metadata_round_trip (d : InstanceDescriptors) (fs : List ResolvedField) :
    parseMetadata (generateMetadata d fs) = some (d, fs.map metaEntryOf) := by
  have hrows : parseFieldRows (fs.map fieldMetaRow) = some (fs.map metaEntryOf) := by
    induction fs with
    | nil => rfl
    | cons f fs ih => simp [parseFieldRows, parseFieldMetaRow_round, ih]
  simp [parseMetadata, generateMetadata, parseDescriptorRow, descriptorRow, hrows]

/-- A tabular artifact: header plus data rows. -/
structure Table where
  header : List String
  rows : List (List String)
deriving DecidableEq

/-- Fatal error of the Layout Splitter. -/
inductive SplitError where
  | NoGroupsFound
deriving DecidableEq

/-- Group tag of a golden-record column under a grouping policy, read off the
metadata entry keyed by the column name. -/
def colTag (policy : FieldMetaEntry → Option String)
    (meta : List FieldMetaEntry) (c : String) : Option String :=
  (meta.find? (fun e => e.key == c)).bind policy

/-- A column belongs to the sub-table of group g when it is an
instance-identifying column or its metadata entry carries the tag g. -/
def keepCol (idCols : List String) (policy : FieldMetaEntry → Option String)
    (meta : List FieldMetaEntry) (g : String) (c : String) : Bool :=
  idCols.contains c || (colTag policy meta c == some g)

/-- Cells of one row at the column positions the header keeps. -/
def selectCells (keep : String → Bool) (header row : List String) : List String :=
  (header.zip row).filterMap (fun p => if keep p.1 then some p.2 else none)

/-- The sub-table of one group: matching columns plus the
instance-identifying columns, in original order. -/
def subTableFor (idCols : List String) (policy : FieldMetaEntry → Option String)
    (meta : List FieldMetaEntry) (g : String) (t : Table) : Table :=
  ⟨t.header.filter (keepCol idCols policy meta g),
   t.rows.map (selectCells (keepCol idCols policy meta g) t.header)⟩

/-- Modelled from the spec: the Layout Splitter — one sub-table per group tag
found in the metadata, failing with NoGroupsFound when the grouping policy
matches zero metadata entries (section 4.11; layout_splitter source is not in
this snapshot). -/
def layoutSplit (idCols : List String) (policy : FieldMetaEntry → Option String)
    (meta : List FieldMetaEntry) (t : Table) :
    Except SplitError (List (String × Table)) :=
  let gs := (meta.filterMap policy).dedup
  if gs = [] then .error .NoGroupsFound
  else .ok (gs.map (fun g => (g, subTableFor idCols policy meta g t)))

/-- C7: with at least one matching metadata entry the Layout Splitter
succeeds with one sub-table per group, and the columns of the sub-table of
group g are exactly the golden-record columns that are instance-identifying
or whose metadata entry carries the tag g. -/
theorem layoutSplit_columns (idCols : List String)
    (policy : FieldMetaEntry → Option String) (meta : List FieldMetaEntry)
    (t : Table) (h : meta.filterMap policy ≠ []) :
    ∃ subs, layoutSplit idCols policy meta t = .ok subs ∧
      subs.length = (meta.filterMap policy).dedup.length ∧
      ∀ g sub, (g, sub) ∈ subs →
        ∀ c, c ∈ sub.header ↔
          (c ∈ t.header ∧ (c ∈ idCols ∨ colTag policy meta c = some g)) := by
  have hgs : (meta.filterMap policy).dedup ≠ [] := by
    simpa [List.dedup_eq_nil] using h
  refine ⟨((meta.filterMap policy).dedup).map
      (fun g => (g, subTableFor idCols policy meta g t)), ?_, ?_, ?_⟩
  · simp [layoutSplit, hgs]
  · simp
  · intro g sub hmem c
    rcases List.mem_map.mp hmem with ⟨g', _, hg'⟩
    obtain ⟨rfl, rfl⟩ : g' = g ∧ subTableFor idCols policy meta g' t = sub := by
      exact ⟨congrArg Prod.fst hg', congrArg Prod.snd hg'⟩
    simp [subTableFor, List.mem_filter, keepCol]

/-- Golden record for the C7 witness: five columns, one instance row. -/
def exTableC7 : Table :=
  ⟨["id", "c1", "c2", "c3", "c4"], [["r1", "v1", "v2", "v3", "v4"]]⟩

/-- Metadata for the C7 witness: columns c1 and c2 are tagged by the grouping
policy, c3 and c4 are not. -/
def exMetaC7 : List FieldMetaEntry :=
  [⟨"c1", Category.demographic, "c1", "C1", "p"⟩,
   ⟨"c2", Category.demographic, "c2", "C2", "p"⟩,
   ⟨"c3", Category.scoring, "c3", "C3", "p"⟩,
   ⟨"c4", Category.scoring, "c4", "C4", "p"⟩]

/-- Grouping policy for the C7 witness: demographic entries carry the
country tag MX. -/
def exPolicyC7 (e : FieldMetaEntry) : Option String :=
  if e.category == Category.demographic then some "MX" else none

/-- Witness for C7 at the spec scenario: splitting a five-column golden
record with two MX-tagged columns plus the instance-id column yields a
three-column MX sub-table. -/
theorem layoutSplit_columns_witness :
    exMetaC7.filterMap exPolicyC7 ≠ [] ∧
    (∃ subs, layoutSplit ["id"] exPolicyC7 exMetaC7 exTableC7 = .ok subs ∧
      subs.length = (exMetaC7.filterMap exPolicyC7).dedup.length ∧
      ∀ g sub, (g, sub) ∈ subs →
        ∀ c, c ∈ sub.header ↔
          (c ∈ exTableC7.header ∧
            (c ∈ ["id"] ∨ colTag exPolicyC7 exMetaC7 c = some g))) ∧
    layoutSplit ["id"] exPolicyC7 exMetaC7 exTableC7 =
      .ok [("MX", ⟨["id", "c1", "c2"], [["r1", "v1", "v2"]]⟩)] :=
  ⟨by decide,
   layoutSplit_columns ["id"] exPolicyC7 exMetaC7 exTableC7 (by decide),
   rfl⟩

/-- Leaf field types recognized from an explicit type attribute. -/
def leafTypeOf (s : String) : Option FieldType :=
  if s = "text" then some .text
  else if s = "choice" then some .choice
  else if s = "numeric" then some .numeric
  else none

/-- The attribute list declares an explicit leaf type. -/
def hasLeafTypeAttr (a : List (String × String)) : Bool :=
  match lookupAttr a "type" with
  | some s => (leafTypeOf s).isSome
  | none => false

/-- Type tag of an element: the declared type when present, group or unknown
otherwise (section 3 closed set with unknown fallback). -/
def typeOfElem (e : XmlElement) : FieldType :=
  match lookupAttr e.attrs "type" with
  | some s =>
    match leafTypeOf s with
    | some t => t
    | none => if s = "group" then .group else .unknown
  | none => if e.children.isEmpty then .unknown else .group

mutual
/-- Modelled from the spec: field-like shape — an identifier attribute with
no further field-like descendant, or an explicit leaf type tag (section 4.3;
element_processor source is not in this snapshot). -/
def fieldLikeE : XmlElement → Bool
  | .node _ a c _ =>
    ((lookupAttr a "id").isSome && !(descFieldLike c)) || hasLeafTypeAttr a

/-- Some element of the list or of its descendants is field-like. -/
def descFieldLike : List XmlElement → Bool
  | [] => false
  | e :: es => fieldLikeE e || childFieldLike e || descFieldLike es

/-- Some strict descendant of the element is field-like. -/
def childFieldLike : XmlElement → Bool
  | .node _ _ c _ => descFieldLike c
end

/-- Split a language code into language part and optional country part. -/
def splitLangCode (code : String) : String × Option String :=
  match code.toList.span (fun c => c ≠ '-') with
  | (l, []) => (String.mk l, none)
  | (l, _ :: cs) => (String.mk l, some (String.mk cs))

/-- Build a language entry from a language code and a value. -/
def langEntryOf (code v : String) : LangEntry :=
  ⟨(splitLangCode code).1, (splitLangCode code).2, v⟩

/-- Language code of a label attribute key, when the key carries the label
naming convention. -/
def labelKeyLang (k : String) : Option String :=
  if ("label_".toList).isPrefixOf k.toList
  then some (String.mk (k.toList.drop 6)) else none

/-- Language-tagged entries found among the attributes of an element. -/
def labelsFromAttrs (a : List (String × String)) : List LangEntry :=
  a.filterMap (fun p => (labelKeyLang p.1).map (fun code => langEntryOf code p.2))

/-- Language-tagged entries found on immediate language-variant children. -/
def labelsFromChildren (c : List XmlElement) : List LangEntry :=
  c.filterMap (fun e =>
    match e with
    | .node t a _ txt =>
      if t = "label" then
        match lookupAttr a "lang", txt with
        | some code, some v => some (langEntryOf code v)
        | _, _ => none
      else none)

mutual
/-- Modelled from the spec: the Element Processor — depth-first traversal in
document order, emitting one FieldRecord per field-like element and extending
the path context on containers (section 4.3; element_processor source is not
in this snapshot). -/
def extractE (path : List String) : XmlElement → List FieldRecord
  | .node t a c txt =>
    if fieldLikeE (.node t a c txt) then
      [⟨(lookupAttr a "id").getD t, path ++ [t], typeOfElem (.node t a c txt),
        labelsFromAttrs a ++ labelsFromChildren c⟩]
    else extractL (path ++ [t]) c

/-- Traversal over a list of sibling elements in document order. -/
def extractL (path : List String) : List XmlElement → List FieldRecord
  | [] => []
  | e :: es => extractE path e ++ extractL path es
end

/-- The options one pipeline run is given: requested language and country,
configured default language, header style, inclusion policy, category rules
and instance descriptors, threaded explicitly (section 9 design note). -/
structure PipelineOptions where
  language : String
  country : Option String
  defaultLanguage : String
  useKeyHeader : Bool
  policy : FilterPolicy
  rules : List CategoryRule
  descriptors : InstanceDescriptors
deriving DecidableEq

/-- Fatal error of a pipeline run. -/
inductive PipelineError where
  | structuralViolation
  | noLabelAvailable
deriving DecidableEq

/-- Resolve one field record: business key, category and canonical label. -/
def resolveField (opts : PipelineOptions) (fr : FieldRecord) :
    Except PipelineError ResolvedField :=
  match resolveLanguage opts.defaultLanguage opts.language opts.country fr with
  | .error _ => .error .noLabelAvailable
  | .ok (v, t) => .ok ⟨fr, businessKey fr, categorize opts.rules fr, v, t⟩

/-- Resolve every record, stopping at the first fatal error. -/
def resolveAll (opts : PipelineOptions) :
    List FieldRecord → Except PipelineError (List ResolvedField)
  | [] => .ok []
  | fr :: rest =>
    match resolveField opts fr, resolveAll opts rest with
    | .ok r, .ok rs => .ok (r :: rs)
    | .error e, _ => .error e
    | .ok _, .error e => .error e

/-- Render a table to its byte-stable textual form. -/
def renderTable (t : List (List String)) : String :=
  String.intercalate "\n" (t.map (String.intercalate ","))

/-- Modelled from the spec: the whole pipeline — Loaded, Normalized,
Extracted, Resolved, Generated as a linear composition with no back-edges;
a pure transformation from (structure document, data document, options) to
(golden record bytes, metadata bytes) (sections 2 and 5; the backend sources
are not in this snapshot). -/
def runPipeline (opts : PipelineOptions) (sdoc : XmlElement)
    (ddata : List (List (String × String))) :
    Except PipelineError (String × String) :=
  match normalizeDocument sdoc with
  | .error _ => .error .structuralViolation
  | .ok (ndoc, _) =>
    let records := extractE [] ndoc
    let kept := (fieldFilter opts.policy (categorize opts.rules) records).1
    match resolveAll opts kept with
    | .error e => .error e
    | .ok resolved =>
      .ok (renderTable (goldenRecord opts.useKeyHeader resolved ddata),
           renderTable (generateMetadata opts.descriptors resolved))

/-- C1: the pipeline is a deterministic function of its inputs and options —
two runs on identical structure documents, identical data documents and
identical options produce identical golden record bytes and identical
metadata bytes. -/
theorem pipeline_deterministic (o1 o2 : PipelineOptions) (s1 s2 : XmlElement)
    (d1 d2 : List (List (String × String)))
    (ho : o1 = o2) (hs : s1 = s2) (hd : d1 = d2) :
    runPipeline o1 s1 d1 = runPipeline o2 s2 d2 := by
  subst ho
  subst hs
  subst hd
  rfl

/-- Options for the C1 witness run. -/
def exOpts : PipelineOptions :=
  ⟨"es", none, "en", false, ⟨true, false, false, none⟩,
   [⟨"client", Category.clientMeta⟩], ⟨"i1", "cl", "co", "2024", "v1", "p"⟩⟩

/-- Structure document for the C1 witness run. -/
def exDocC1 : XmlElement :=
  .node "Structure" []
    [.node "field"
      [("id", "client_name"), ("type", "text"),
       ("label_en", "Client Name"), ("label_es", "Cliente")] [] none] none

/-- Witness for C1: two runs of the pipeline on the identical concrete
structure document, data bindings and options produce the identical output. -/
theorem pipeline_deterministic_witness :
    exOpts = exOpts ∧ exDocC1 = exDocC1 ∧
      runPipeline exOpts exDocC1 [[("root::client_name", "Acme")]] =
        runPipeline exOpts exDocC1 [[("root::client_name", "Acme")]] :=
  ⟨rfl, rfl,
   pipeline_deterministic exOpts exOpts exDocC1 exDocC1
     [[("root::client_name", "Acme")]] [[("root::client_name", "Acme")]]
     rfl rfl rfl⟩

/-- Observable page state of the golden-record load page: toast list, status
line, result panel, network requests issued, triggered downloads and the load
button state (from the load page script). -/
structure LoadPageState where
  toasts : List (String × String)
  statusLine : Option (String × String)
  resultShown : Bool
  requestsSent : List String
  downloads : List String
  loadBtnDisabled : Bool
  loadBtnText : String
deriving DecidableEq

/-- Append one toast to the page state. -/
def addToast (s : LoadPageState) (msg kind : String) : LoadPageState :=
  { s with toasts := s.toasts ++ [(msg, kind)] }

/-- Toast shown when no file is selected. -/
def msgSelectCsv : String := "Por favor selecciona un archivo CSV"

/-- Toast shown when the selected file is not a CSV. -/
def msgMustBeCsv : String := "El archivo debe ser CSV"

/-- Abstract response of the load-golden-record endpoint. -/
structure LoadResponse where
  ok : Bool
  detail : Option String
deriving DecidableEq

/-- The loadBtn click handler of the load page script: guard on a selected
file whose name ends in .csv, then disable the button, post the form to the
load-golden-record endpoint and handle the response, re-enabling the button
at the end. -/
def loadClick (file : Option String) (instanceId : String)
    (resp : LoadResponse) (s : LoadPageState) : LoadPageState :=
  match file with
  | none => addToast s msgSelectCsv "error"
  | some name =>
    if strEndsWith ".csv" name = false then addToast s msgMustBeCsv "error"
    else
      let s1 := { s with loadBtnDisabled := true, loadBtnText := "Cargando...",
                         statusLine := some ("Procesando Golden Record...", "info") }
      let s2 := { s1 with requestsSent :=
                    s1.requestsSent ++ ["/api/v1/structure/load-golden-record"] }
      let s3 :=
        if resp.ok then
          { s2 with
              downloads := s2.downloads ++ ["golden_record_" ++ instanceId ++ ".csv"],
              statusLine := some ("Golden Record procesado exitosamente", "success"),
              resultShown := true,
              toasts := s2.toasts ++ [("Golden Record procesado exitosamente", "success")] }
        else
          let m := resp.detail.getD "Error al procesar Golden Record"
          { s2 with
              statusLine := some ("Error: " ++ m, "error"),
              toasts := s2.toasts ++ [("Error: " ++ m, "error")] }
      { s3 with loadBtnDisabled := false, loadBtnText := "Cargar Golden Record" }

/-- C9: when no file is selected, or the selected file name does not end in
.csv, the load handler only adds an error toast and returns — no network
request is issued, no download is triggered, the status line, result panel
and load button are left exactly as they were. -/
theorem loadClick_guard (file : Option String) (instanceId : String)
    (resp : LoadResponse) (s : LoadPageState)
    (h : file = none ∨ ∃ name, file = some name ∧ strEndsWith ".csv" name = false) :
    (loadClick file instanceId resp s).requestsSent = s.requestsSent
  ∧ (loadClick file instanceId resp s).downloads = s.downloads
  ∧ (loadClick file instanceId resp s).statusLine = s.statusLine
  ∧ (loadClick file instanceId resp s).resultShown = s.resultShown
  ∧ (loadClick file instanceId resp s).loadBtnDisabled = s.loadBtnDisabled
  ∧ (loadClick file instanceId resp s).loadBtnText = s.loadBtnText
  ∧ ((loadClick file instanceId resp s).toasts = s.toasts ++ [(msgSelectCsv, "error")]
      ∨ (loadClick file instanceId resp s).toasts = s.toasts ++ [(msgMustBeCsv, "error")]) := by
  rcases h with h | ⟨name, hn, hcsv⟩
  · subst h
    simp [loadClick, addToast]
  · subst hn
    simp [loadClick, hcsv, addToast]

/-- Witness for C9 at a concrete non-CSV selection: the handler only toasts
and leaves the rest of a concrete page state unchanged. -/
theorem loadClick_guard_witness :
    strEndsWith ".csv" "datos.txt" = false ∧
    ((loadClick (some "datos.txt") "i1" ⟨true, none⟩
        ⟨[], none, false, [], [], false, "Cargar Golden Record"⟩).requestsSent = []
      ∧ (loadClick (some "datos.txt") "i1" ⟨true, none⟩
        ⟨[], none, false, [], [], false, "Cargar Golden Record"⟩).downloads = []
      ∧ (loadClick (some "datos.txt") "i1" ⟨true, none⟩
        ⟨[], none, false, [], [], false, "Cargar Golden Record"⟩).statusLine = none
      ∧ (loadClick (some "datos.txt") "i1" ⟨true, none⟩
        ⟨[], none, false, [], [], false, "Cargar Golden Record"⟩).resultShown = false
      ∧ (loadClick (some "datos.txt") "i1" ⟨true, none⟩
        ⟨[], none, false, [], [], false, "Cargar Golden Record"⟩).loadBtnDisabled = false
      ∧ (loadClick (some "datos.txt") "i1" ⟨true, none⟩
        ⟨[], none, false, [], [], false, "Cargar Golden Record"⟩).loadBtnText = "Cargar Golden Record"
      ∧ ((loadClick (some "datos.txt") "i1" ⟨true, none⟩
        ⟨[], none, false, [], [], false, "Cargar Golden Record"⟩).toasts = [] ++ [(msgSelectCsv, "error")]
        ∨ (loadClick (some "datos.txt") "i1" ⟨true, none⟩
        ⟨[], none, false, [], [], false, "Cargar Golden Record"⟩).toasts = [] ++ [(msgMustBeCsv, "error")])) :=
  ⟨by decide,
   loadClick_guard (some "datos.txt") "i1" ⟨true, none⟩
     ⟨[], none, false, [], [], false, "Cargar Golden Record"⟩
     (Or.inr ⟨"datos.txt", rfl, by decide⟩)⟩

/-- Observable browser state of the upload page: redirect target, status area
and result area (from upload.js). -/
structure UploadPageState where
  location : Option String
  statusArea : Option (String × String)
  resultArea : String
deriving DecidableEq

/-- Abstract fetch response as upload.js reads it: HTTP status, ok flag, the
JSON success flag and optional detail and message fields, plus the returned
file id. -/
structure FetchResponse where
  status : Nat
  ok : Bool
  success : Bool
  detail : Option String
  message : Option String
  fileId : String
deriving DecidableEq

/-- The handleAuthError helper of upload.js: on HTTP 401 or 403 redirect the
browser to the login page and report an auth error. -/
def handleAuthError (resp : FetchResponse) (st : UploadPageState) :
    Bool × UploadPageState :=
  if resp.status = 401 ∨ resp.status = 403 then
    (true, { st with location := some "/auth/login" })
  else (false, st)

/-- The uploadFile flow of upload.js after the fetch to the upload endpoint:
auth check first, then the ok and success checks; the outcome is the file id
or the thrown error message. -/
def uploadFileStep (desc : String) (resp : FetchResponse) (st : UploadPageState) :
    UploadPageState × Except String String :=
  let auth := handleAuthError resp st
  if auth.1 then (auth.2, .error "Session expired")
  else if resp.ok = false then
    (auth.2, .error (resp.detail.getD (desc ++ " upload failed")))
  else if resp.success = false then
    (auth.2, .error (resp.message.getD (desc ++ " upload failed")))
  else (auth.2, .ok resp.fileId)

/-- The processFiles flow of upload.js after the fetch to the process
endpoint: auth check first, then the ok and success checks. -/
def processFilesStep (resp : FetchResponse) (st : UploadPageState) :
    UploadPageState × Except String String :=
  let auth := handleAuthError resp st
  if auth.1 then (auth.2, .error "Session expired")
  else if resp.ok = false then
    (auth.2, .error (resp.detail.getD "Processing failed"))
  else if resp.success = false then
    (auth.2, .error (resp.message.getD "Processing failed"))
  else (auth.2, .ok resp.fileId)

/-- The catch branch of the uploadForm submit handler: every error except the
session-expired one is written to the status area and clears the result
area; the session-expired error writes nothing. -/
def submitCatch (msg : String) (st : UploadPageState) : UploadPageState :=
  if msg = "Session expired" then st
  else { st with statusArea := some ("Error: " ++ msg, "error"), resultArea := "" }

/-- C10: a 401 or 403 response to the upload or the process endpoint
redirects the browser to the login page and throws the session-expired
error, and for exactly that error the submit handler catch branch leaves the
status and result areas untouched. -/
theorem upload_auth_error_flow (desc : String) (resp : FetchResponse)
    (st st2 : UploadPageState) (h : resp.status = 401 ∨ resp.status = 403) :
    uploadFileStep desc resp st =
        ({ st with location := some "/auth/login" }, .error "Session expired")
  ∧ processFilesStep resp st =
        ({ st with location := some "/auth/login" }, .error "Session expired")
  ∧ submitCatch "Session expired" st2 = st2 := by
  refine ⟨?_, ?_, by simp [submitCatch]⟩
  · simp [uploadFileStep, handleAuthError, h]
  · simp [processFilesStep, handleAuthError, h]

/-- Witness for C10 at a concrete 401 response and concrete page states. -/
theorem upload_auth_error_flow_witness :
    ((401 : Nat) = 401 ∨ (401 : Nat) = 403) ∧
    (uploadFileStep "Main file" ⟨401, false, false, none, none, ""⟩
        ⟨none, none, ""⟩ =
        (⟨some "/auth/login", none, ""⟩, .error "Session expired")
      ∧ processFilesStep ⟨401, false, false, none, none, ""⟩ ⟨none, none, ""⟩ =
        (⟨some "/auth/login", none, ""⟩, .error "Session expired")
      ∧ submitCatch "Session expired" ⟨none, some ("x", "info"), "y"⟩ =
        ⟨none, some ("x", "info"), "y"⟩) :=
  ⟨Or.inl rfl,
   upload_auth_error_flow "Main file" ⟨401, false, false, none, none, ""⟩
     ⟨none, none, ""⟩ ⟨none, some ("x", "info"), "y"⟩ (Or.inl rfl)⟩

end DxSentinel
